import Mathlib

/-!
Verification of the Open3D tensor-pipeline registration kernels.

This file gives a shallow embedding, over `ℚ`, of the algebraic structure of
the kernels in `cpp/open3d/t/pipelines/kernel/ComputeTransformCPU.cpp` and
`cpp/open3d/t/pipelines/kernel/SVD3x3CUDA.cuh`, and proves properties of that
embedding.  Scalars are modelled by `ℚ` (exact arithmetic); flat C arrays are
modelled by total functions `ℤ → ℚ` (pointer indexing) and `ℤ → ℤ` (the
`int64_t` correspondence / neighbour-index arrays).

The closed-form 3x3 SVD routine `svd` in `SVD3x3CUDA.cuh` operates on the raw
bit patterns of its floating-point temporaries (through `union un`), so its
numeric behaviour has no faithful embedding over an exact field; wherever a
kernel calls it (or the external `Tensor::SVD` collaborator), the
decomposition backend is taken as an explicit function parameter, and the
code that consumes its output is translated exactly.
-/

open scoped Matrix

namespace Open3D

abbrev Mat3 := Matrix (Fin 3) (Fin 3) ℚ

/-- `svd` output as written by `SVD3x3CUDA.cuh:svd` into the caller's flat
arrays `U[9]`, `S[3]`, `V[9]` (`U` and `V` row-major). -/
structure SVDResult where
  U : Fin 9 → ℚ
  S : Fin 3 → ℚ
  V : Fin 9 → ℚ

/-- A 3x3-SVD backend: what the `svd(...)` call inside `solve_svd3x3` returns
for a given row-major input matrix. -/
abbrev SVDFun := (Fin 9 → ℚ) → SVDResult

/-- `SVD3x3CUDA.cuh:matmul3x3_3x1`: `o = M · v` on explicit scalars. -/
def matmul3x3_3x1 (m00 m01 m02 m10 m11 m12 m20 m21 m22 v0 v1 v2 : ℚ) :
    ℚ × ℚ × ℚ :=
  (m00 * v0 + m01 * v1 + m02 * v2,
   m10 * v0 + m11 * v1 + m12 * v2,
   m20 * v0 + m21 * v1 + m22 * v2)

/-- `SVD3x3CUDA.cuh:matmul3x3_3x3`: `C = A · B`, computed column by column
through `matmul3x3_3x1` exactly as in the source. -/
def matmul3x3_3x3 (a00 a01 a02 a10 a11 a12 a20 a21 a22
    b00 b01 b02 b10 b11 b12 b20 b21 b22 : ℚ) :
    ℚ × ℚ × ℚ × ℚ × ℚ × ℚ × ℚ × ℚ × ℚ :=
  let c0 := matmul3x3_3x1 a00 a01 a02 a10 a11 a12 a20 a21 a22 b00 b10 b20
  let c1 := matmul3x3_3x1 a00 a01 a02 a10 a11 a12 a20 a21 a22 b01 b11 b21
  let c2 := matmul3x3_3x1 a00 a01 a02 a10 a11 a12 a20 a21 a22 b02 b12 b22
  (c0.1, c1.1, c2.1, c0.2.1, c1.2.1, c2.2.1, c0.2.2, c1.2.2, c2.2.2)

/-- The epsilon threshold of `solve_svd3x3` (`const scalar_t epsilon = 1e-6`). -/
def epsilon : ℚ := 1 / 1000000

/-- `SVD3x3CUDA.cuh:solve_svd3x3`, with the `svd(...)` call abstracted as the
backend parameter `svdFn`.  Everything after that call — the pseudo-inversion
of the singular values against `epsilon`, `Ainv = V * [(Sigma^+) * UT]`, and
`x = Ainv * b` — is translated operation for operation. -/
def solve_svd3x3 (svdFn : SVDFun) (a : Fin 9 → ℚ) (b1 b2 b3 : ℚ) :
    ℚ × ℚ × ℚ :=
  let r := svdFn a
  let S0 : ℚ := if r.S 0 < epsilon then 0 else 1 / r.S 0
  let S1 : ℚ := if r.S 1 < epsilon then 0 else 1 / r.S 1
  let S2 : ℚ := if r.S 2 < epsilon then 0 else 1 / r.S 2
  let Ainv := matmul3x3_3x3
    (r.V 0) (r.V 1) (r.V 2) (r.V 3) (r.V 4) (r.V 5) (r.V 6) (r.V 7) (r.V 8)
    (r.U 0 * S0) (r.U 3 * S0) (r.U 6 * S0)
    (r.U 1 * S1) (r.U 4 * S1) (r.U 7 * S1)
    (r.U 2 * S2) (r.U 5 * S2) (r.U 8 * S2)
  matmul3x3_3x1 Ainv.1 Ainv.2.1 Ainv.2.2.1 Ainv.2.2.2.1 Ainv.2.2.2.2.1
    Ainv.2.2.2.2.2.1 Ainv.2.2.2.2.2.2.1 Ainv.2.2.2.2.2.2.2.1
    Ainv.2.2.2.2.2.2.2.2 b1 b2 b3

/-- Interpret a row-major flat 9-array as a 3x3 matrix. -/
def toMat3 (f : Fin 9 → ℚ) : Mat3 :=
  !![f 0, f 1, f 2; f 3, f 4, f 5; f 6, f 7, f 8]

/-- The pseudo-inverted singular values: reciprocal, except that a singular
value below `epsilon` contributes `0`. -/
def pinvSigma (S : Fin 3 → ℚ) : Fin 3 → ℚ :=
  fun i => if S i < epsilon then 0 else 1 / S i

/-- Pack a 3-vector result as the tuple produced by `solve_svd3x3`. -/
def vecToTriple (v : Fin 3 → ℚ) : ℚ × ℚ × ℚ := (v 0, v 1, v 2)

end Open3D

namespace Open3D

/-- **C5.** `solve_svd3x3` composes the pseudo-inverse: for every SVD backend
`svdFn` and every input `A` (row-major) and `b`, the result is
`x = V · diag(S⁺) · Uᵗ · b` where `S⁺ᵢ = 0` when `Sᵢ < 1e-6` and `1/Sᵢ`
otherwise; in particular, when all three singular values returned for `A` are
below `1e-6` the result is the zero vector.  The operation is a total
function (no error path). -/
theorem solve_svd3x3_pseudoinverse (svdFn : SVDFun) (a : Fin 9 → ℚ)
    (b1 b2 b3 : ℚ) :
    solve_svd3x3 svdFn a b1 b2 b3 =
      vecToTriple ((toMat3 (svdFn a).V * Matrix.diagonal (pinvSigma (svdFn a).S) *
        (toMat3 (svdFn a).U)ᵀ).mulVec ![b1, b2, b3]) ∧
    ((∀ i, (svdFn a).S i < epsilon) →
      solve_svd3x3 svdFn a b1 b2 b3 = (0, 0, 0)) := by
  constructor
  · simp +decide [solve_svd3x3, matmul3x3_3x3, matmul3x3_3x1, vecToTriple,
      toMat3, pinvSigma, Matrix.mulVec, Matrix.dotProduct, Matrix.mul_apply,
      Fin.sum_univ_three, Matrix.diagonal_apply, Matrix.cons_val_zero,
      Matrix.cons_val_one, Matrix.cons_val_two, Matrix.head_cons,
      Matrix.vecHead, Matrix.vecTail, Function.comp, Matrix.cons_val_succ,
      Matrix.transpose_apply, Matrix.vecMul, Matrix.vecMul_diagonal,
      Prod.mk.injEq]
    refine ⟨by ring, by ring, by ring⟩
  · intro h
    simp only [solve_svd3x3, matmul3x3_3x3, matmul3x3_3x1]
    rw [if_pos (h 0), if_pos (h 1), if_pos (h 2)]
    norm_num

/-- Witness for `solve_svd3x3_pseudoinverse`: a backend that reports all
singular values `0 < 1e-6` forces the zero result. -/
theorem solve_svd3x3_pseudoinverse_witness :
    solve_svd3x3 (fun _ => ⟨fun _ => 1, fun _ => 0, fun _ => 1⟩)
      (fun _ => 0) 1 2 3 = (0, 0, 0) :=
  (solve_svd3x3_pseudoinverse (fun _ => ⟨fun _ => 1, fun _ => 0, fun _ => 1⟩)
    (fun _ => 0) 1 2 3).2 (fun _ => by norm_num [epsilon])

/-- The symmetric-eigenproblem phase of `svd` in `SVD3x3CUDA.cuh`: the
`for (int i = 0; i < 4; i++)` Jacobi loop, translated with its counter and
exit condition intact.  One `sweep` is the loop body (the three Givens
conjugations and quaternion updates); its bit-level floating-point content is
abstracted as a parameter, the control flow is the source's. -/
def jacobiEigenLoop {α : Type*} (sweep : α → α) (i : ℕ) (s : α) : α × ℕ :=
  if i < 4 then jacobiEigenLoop sweep (i + 1) (sweep s) else (s, i)
termination_by 4 - i
decreasing_by omega

/-- The Jacobi phase as entered by `svd`: counter starts at `0`.  Returns the
final state together with the number of sweeps that were executed. -/
def jacobiEigenPhase {α : Type*} (sweep : α → α) (s : α) : α × ℕ :=
  jacobiEigenLoop sweep 0 s

/-- **C9.** For every input (and every sweep body), the Jacobi
symmetric-eigenproblem phase of the 3x3 SVD performs exactly 4 sweeps: the
result is the body iterated exactly 4 times and the loop exits with counter
4.  The count is a constant of the control flow — there is no convergence
test — so the routine is total and bounded. -/
theorem jacobiEigenPhase_exactly_four_sweeps {α : Type*} (sweep : α → α)
    (s : α) : jacobiEigenPhase sweep s = (sweep^[4] s, 4) := by
  have h4 : ¬ (4 < 4) := by omega
  rw [jacobiEigenPhase, jacobiEigenLoop, if_pos (by omega : 0 < 4),
    jacobiEigenLoop, if_pos (by omega : 1 < 4),
    jacobiEigenLoop, if_pos (by omega : 2 < 4),
    jacobiEigenLoop, if_pos (by omega : 3 < 4),
    jacobiEigenLoop, if_neg h4]
  rfl

end Open3D

namespace Open3D

/-! ## `ComputeTransformCPU.cpp:Get3x3SxyLinearSystem`

Source/target point clouds are flat scalar arrays (`ℤ → ℚ`, pointer
indexing), the correspondence map is an `int64_t` array (`ℤ → ℤ`) with `-1`
as the "no match" sentinel, and `n` is the number of source points. -/

/-- One iteration of the first (7-entry) reduction of
`Get3x3SxyLinearSystem`: for a valid correspondence, entries 0-2 receive the
source coordinates, entries 3-5 the corresponding target coordinates and
entry 6 counts the pair; a sentinel correspondence contributes nothing. -/
def meanContrib (source target : ℤ → ℚ) (corres : ℤ → ℤ) (w : ℕ) :
    Fin 7 → ℚ := fun j =>
  if corres w = -1 then 0
  else
    match j.val with
    | 0 => source (3 * w)
    | 1 => source (3 * w + 1)
    | 2 => source (3 * w + 2)
    | 3 => target (3 * corres w)
    | 4 => target (3 * corres w + 1)
    | 5 => target (3 * corres w + 2)
    | _ => 1

/-- The first parallel reduction (`mean_1x7` before the division): elementwise
sum of the per-index contributions over the workload range `0..n-1`. -/
def meanSums (source target : ℤ → ℚ) (corres : ℤ → ℤ) (n : ℕ) : Fin 7 → ℚ :=
  (List.range n).foldl (fun acc w => acc + meanContrib source target corres w) 0

/-- `mean_1x7` after the in-place division: entries 0-5 are divided by entry 6
(the valid-pair count), with no zero guard, exactly as in the source. -/
def mean_1x7 (source target : ℤ → ℚ) (corres : ℤ → ℤ) (n : ℕ) : Fin 7 → ℚ :=
  fun j =>
    if j.val < 6 then
      meanSums source target corres n j / meanSums source target corres n 6
    else meanSums source target corres n 6

/-- One iteration of the second (9-entry) reduction of
`Get3x3SxyLinearSystem`: for a valid correspondence, entry `i` accumulates
`(source[3*w + i%3] - mean_1x7[i%3]) * (target[3*corres[w] + i/3] -
mean_1x7[3 + i/3])`; `ms`/`mt` are the divided means read by the loop. -/
def sxyContrib (source target : ℤ → ℚ) (corres : ℤ → ℤ) (ms mt : Fin 3 → ℚ)
    (w : ℕ) : Fin 9 → ℚ := fun i =>
  if corres w = -1 then 0
  else
    (source (3 * w + (i.val % 3 : ℕ)) - ms ⟨i.val % 3, by omega⟩) *
    (target (3 * corres w + (i.val / 3 : ℕ)) - mt ⟨i.val / 3, by omega⟩)

/-- The second parallel reduction (`sxy_1x9`). -/
def sxySums (source target : ℤ → ℚ) (corres : ℤ → ℤ) (ms mt : Fin 3 → ℚ)
    (n : ℕ) : Fin 9 → ℚ :=
  (List.range n).foldl
    (fun acc w => acc + sxyContrib source target corres ms mt w) 0

/-- The outputs `Get3x3SxyLinearSystem` writes back: the `Sxy` tensor, the
divided means `mean_t`/`mean_s`, and the inlier count (entry 6). -/
structure SxyLinearSystem where
  Sxy : Mat3
  mean_t : Fin 3 → ℚ
  mean_s : Fin 3 → ℚ
  inlier_count : ℚ

/-- `ComputeTransformCPU.cpp:Get3x3SxyLinearSystem`.  The stored tensor entry
`Sxy[j][k]` is `sxy_1x9[3*j + k] / mean_1x7[6]` — flat index `3*j + k`, whose
reduction entry has source coordinate `(3*j+k) % 3` and target coordinate
`(3*j+k) / 3` — and the means/count are passed through. -/
def Get3x3SxyLinearSystem (source target : ℤ → ℚ) (corres : ℤ → ℤ) (n : ℕ) :
    SxyLinearSystem :=
  let m := mean_1x7 source target corres n
  let ms : Fin 3 → ℚ := fun j => m ⟨j.val, by omega⟩
  let mt : Fin 3 → ℚ := fun j => m ⟨j.val + 3, by omega⟩
  let sxy := sxySums source target corres ms mt n
  { Sxy := Matrix.of fun j k => sxy ⟨3 * j.val + k.val, by omega⟩ / m 6
    mean_t := mt
    mean_s := ms
    inlier_count := m 6 }

/-- The sign-correction and composition step of `ComputeRtPointToPointCPU`:
`S = Eye(3)`, flipped to `diag(1,1,-1)` when `U.Det() * (VT.T()).Det() < 0`,
and `R = U.Matmul(S.Matmul(VT))`. -/
def RotationFromUVT (U VT : Mat3) : Mat3 :=
  let S : Mat3 :=
    if U.det * VTᵀ.det < 0 then Matrix.diagonal ![1, 1, -1] else 1
  U * (S * VT)

/-- `ComputeTransformCPU.cpp:ComputeRtPointToPointCPU`.  The generic tensor
SVD `Sxy.SVD()` is an external collaborator (not part of these sources); it
enters as the parameter `svd3`, returning `(U, D, VT)`.  The returned triple
is `(R, t, inlier_count)` with `t = mean_t - R · mean_s`. -/
def ComputeRtPointToPointCPU (svd3 : Mat3 → Mat3 × Mat3 × Mat3)
    (source target : ℤ → ℚ) (corres : ℤ → ℤ) (n : ℕ) :
    Mat3 × (Fin 3 → ℚ) × ℚ :=
  let res := Get3x3SxyLinearSystem source target corres n
  let U := (svd3 res.Sxy).1
  let VT := (svd3 res.Sxy).2.2
  let R := RotationFromUVT U VT
  (R, fun j => res.mean_t j - R.mulVec res.mean_s j, res.inlier_count)

/-! ## Spec-side definitions for the point-to-point claims -/

/-- The set of workload indices with a valid (non-sentinel) correspondence. -/
def validIdx (corres : ℤ → ℤ) (n : ℕ) : Finset ℕ :=
  (Finset.range n).filter (fun w => corres w ≠ -1)

/-- The source point of workload index `w` as a 3-vector. -/
def srcVec (source : ℤ → ℚ) (w : ℕ) : Fin 3 → ℚ :=
  fun j => source (3 * w + (j.val : ℕ))

/-- The target point matched to workload index `w` as a 3-vector. -/
def tgtVec (target : ℤ → ℚ) (corres : ℤ → ℤ) (w : ℕ) : Fin 3 → ℚ :=
  fun j => target (3 * corres w + (j.val : ℕ))

/-- Arithmetic mean of the source points over the valid correspondences. -/
def specMeanSource (source : ℤ → ℚ) (corres : ℤ → ℤ) (n : ℕ) : Fin 3 → ℚ :=
  fun j => (∑ w in validIdx corres n, srcVec source w j) /
    ((validIdx corres n).card : ℚ)

/-- Arithmetic mean of the matched target points over the valid
correspondences. -/
def specMeanTarget (target : ℤ → ℚ) (corres : ℤ → ℤ) (n : ℕ) : Fin 3 → ℚ :=
  fun j => (∑ w in validIdx corres n, tgtVec target corres w j) /
    ((validIdx corres n).card : ℚ)

/-- The cross-covariance matrix exactly as the spec words it:
`Sxy = Σ (source_i - mean_source)(target_i - mean_target)ᵗ` over the valid
pairs (an un-normalized sum of outer products). -/
def specCrossCovariance (source target : ℤ → ℚ) (corres : ℤ → ℤ) (n : ℕ) :
    Mat3 :=
  ∑ w in validIdx corres n,
    Matrix.vecMulVec (srcVec source w - specMeanSource source corres n)
      (tgtVec target corres w - specMeanTarget target corres n)

end Open3D

namespace Open3D

/-- A private-then-merge reduction by elementwise addition over the workload
range is the finite sum of the per-index contributions. -/
theorem foldl_add_range {M : Type*} [AddCommMonoid M] (g : ℕ → M) (n : ℕ) :
    (List.range n).foldl (fun acc w => acc + g w) 0 =
      ∑ w in Finset.range n, g w := by
  induction n with
  | zero => simp
  | succ n ih =>
      rw [List.range_succ, List.foldl_append, Finset.sum_range_succ, ih]
      simp

theorem meanSums_apply (source target : ℤ → ℚ) (corres : ℤ → ℤ) (n : ℕ)
    (j : Fin 7) :
    meanSums source target corres n j =
      ∑ w in Finset.range n, meanContrib source target corres w j := by
  rw [meanSums, foldl_add_range]
  exact (Finset.sum_apply j _ _)

theorem meanSums_count (source target : ℤ → ℚ) (corres : ℤ → ℤ) (n : ℕ) :
    meanSums source target corres n 6 = ((validIdx corres n).card : ℚ) := by
  rw [meanSums_apply, validIdx]
  rw [Finset.card_filter]
  push_cast
  refine Finset.sum_congr rfl (fun w _ => ?_)
  by_cases h : corres w = -1 <;> simp [meanContrib, h]

theorem sxySums_apply (source target : ℤ → ℚ) (corres : ℤ → ℤ)
    (ms mt : Fin 3 → ℚ) (n : ℕ) (i : Fin 9) :
    sxySums source target corres ms mt n i =
      ∑ w in Finset.range n, sxyContrib source target corres ms mt w i := by
  rw [sxySums, foldl_add_range]
  exact (Finset.sum_apply i _ _)

/-- **C10.** The divisor used by `Get3x3SxyLinearSystem` — both for the means
(`mean_1x7[i] / mean_1x7[6]`) and for the stored `Sxy` entries
(`sxy_1x9[i] / mean_1x7[6]`) — is the accumulated valid-correspondence count,
applied with no zero guard: it is nonzero exactly when some correspondence in
range differs from the sentinel `-1`, so on all-sentinel input every one of
these divisions is a division by zero. -/
theorem get3x3_divisor_is_valid_count (source target : ℤ → ℚ)
    (corres : ℤ → ℤ) (n : ℕ) :
    meanSums source target corres n 6 = ((validIdx corres n).card : ℚ) ∧
    (meanSums source target corres n 6 ≠ 0 ↔
      ∃ w, w < n ∧ corres w ≠ -1) := by
  refine ⟨meanSums_count source target corres n, ?_⟩
  rw [meanSums_count]
  rw [Ne, Nat.cast_eq_zero, Finset.card_eq_zero]
  constructor
  · intro h
    rcases Finset.nonempty_iff_ne_empty.2 h with ⟨w, hw⟩
    rw [validIdx, Finset.mem_filter, Finset.mem_range] at hw
    exact ⟨w, hw.1, hw.2⟩
  · rintro ⟨w, hwn, hw⟩ hempty
    have : w ∈ validIdx corres n := by
      rw [validIdx, Finset.mem_filter, Finset.mem_range]
      exact ⟨hwn, hw⟩
    rw [hempty] at this
    exact absurd this (Finset.not_mem_empty w)

end Open3D

namespace Open3D

theorem meanSums_src (source target : ℤ → ℚ) (corres : ℤ → ℤ) (n : ℕ)
    (j : Fin 3) (h : j.val < 7) :
    meanSums source target corres n ⟨j.val, h⟩ =
      ∑ w in validIdx corres n, srcVec source w j := by
  rw [meanSums_apply, validIdx, Finset.sum_filter]
  refine Finset.sum_congr rfl (fun w _ => ?_)
  by_cases hc : corres w = -1
  · simp [meanContrib, hc]
  · rcases j with ⟨jv, hj3⟩
    interval_cases jv <;> simp [meanContrib, hc, srcVec]

theorem meanSums_tgt (source target : ℤ → ℚ) (corres : ℤ → ℤ) (n : ℕ)
    (j : Fin 3) (h : j.val + 3 < 7) :
    meanSums source target corres n ⟨j.val + 3, h⟩ =
      ∑ w in validIdx corres n, tgtVec target corres w j := by
  rw [meanSums_apply, validIdx, Finset.sum_filter]
  refine Finset.sum_congr rfl (fun w _ => ?_)
  by_cases hc : corres w = -1
  · simp [meanContrib, hc]
  · rcases j with ⟨jv, hj3⟩
    interval_cases jv <;> simp [meanContrib, hc, tgtVec]

theorem mean_1x7_src (source target : ℤ → ℚ) (corres : ℤ → ℤ) (n : ℕ)
    (j : Fin 3) (h : j.val < 7) :
    mean_1x7 source target corres n ⟨j.val, h⟩ =
      specMeanSource source corres n j := by
  rw [mean_1x7]
  rw [if_pos (show j.val < 6 by omega)]
  rw [meanSums_src source target corres n j h, meanSums_count,
    specMeanSource]

theorem mean_1x7_tgt (source target : ℤ → ℚ) (corres : ℤ → ℤ) (n : ℕ)
    (j : Fin 3) (h : j.val + 3 < 7) :
    mean_1x7 source target corres n ⟨j.val + 3, h⟩ =
      specMeanTarget target corres n j := by
  rw [mean_1x7]
  rw [if_pos (show j.val + 3 < 6 by omega)]
  rw [meanSums_tgt source target corres n j h, meanSums_count,
    specMeanTarget]

theorem Get3x3_mean_s_eq (source target : ℤ → ℚ) (corres : ℤ → ℤ) (n : ℕ) :
    (Get3x3SxyLinearSystem source target corres n).mean_s =
      specMeanSource source corres n := by
  funext j
  simp only [Get3x3SxyLinearSystem]
  exact mean_1x7_src source target corres n j (by omega)

theorem Get3x3_mean_t_eq (source target : ℤ → ℚ) (corres : ℤ → ℤ) (n : ℕ) :
    (Get3x3SxyLinearSystem source target corres n).mean_t =
      specMeanTarget target corres n := by
  funext j
  simp only [Get3x3SxyLinearSystem]
  exact mean_1x7_tgt source target corres n j (by omega)

end Open3D

namespace Open3D

/-- **C3 (amended).** The 3x3 matrix stored into the `Sxy` tensor (and hence
handed to the SVD) is not the plain outer-product sum: it is its transpose
normalized by the valid-pair count, i.e.
`(1/N) · (Σ (source - mean_source)(target - mean_target)ᵗ)ᵗ
 = (1/N) · Σ (target - mean_target)(source - mean_source)ᵗ`
over the valid (non-sentinel) pairs, with means taken over the valid pairs
only. -/
theorem Sxy_stored_is_normalized_transpose (source target : ℤ → ℚ)
    (corres : ℤ → ℤ) (n : ℕ) :
    (Get3x3SxyLinearSystem source target corres n).Sxy =
      ((validIdx corres n).card : ℚ)⁻¹ •
        (specCrossCovariance source target corres n)ᵀ := by
  ext j k
  have hmod : (3 * j.val + k.val) % 3 = k.val := by omega
  have hdiv : (3 * j.val + k.val) / 3 = j.val := by omega
  have h6 : mean_1x7 source target corres n 6 =
      meanSums source target corres n 6 := by
    rw [mean_1x7]
    rw [if_neg (by decide : ¬ ((6 : Fin 7).val < 6))]
  simp only [Get3x3SxyLinearSystem, Matrix.of_apply, Matrix.smul_apply,
    Matrix.transpose_apply, smul_eq_mul]
  rw [sxySums_apply, specCrossCovariance, Matrix.sum_apply, h6,
    meanSums_count, div_eq_mul_inv, mul_comm]
  congr 1
  rw [validIdx, Finset.sum_filter]
  refine Finset.sum_congr rfl (fun w _ => ?_)
  by_cases hc : corres w = -1
  · simp [sxyContrib, hc]
  · simp only [sxyContrib, if_neg hc, if_pos hc, hmod, hdiv, hc,
      ne_eq, not_false_eq_true, if_true, Matrix.vecMulVec_apply,
      Pi.sub_apply]
    rw [mean_1x7_src source target corres n k (by omega),
      mean_1x7_tgt source target corres n j (by omega)]
    rfl

end Open3D

namespace Open3D

/-- **C3 (counterexample).** On a concrete two-pair input — source points
`(0,0,0), (2,0,0)`, target points `(0,0,0), (0,4,0)`, identity
correspondences — the matrix stored into the `Sxy` tensor is NOT the
cross-covariance sum `Σ (source - mean_source)(target - mean_target)ᵗ`: the
sum has entry `(0,1) = 4` while the stored tensor (being its transpose
divided by the valid count 2) has entry `(0,1) = 0`. -/
theorem Sxy_stored_ne_claimed_cross_covariance :
    (Get3x3SxyLinearSystem (fun k => if k = 3 then 2 else 0)
        (fun k => if k = 4 then 4 else 0) (fun k => k) 2).Sxy ≠
      specCrossCovariance (fun k => if k = 3 then 2 else 0)
        (fun k => if k = 4 then 4 else 0) (fun k => k) 2 := by
  intro h
  have h01 := congrArg (fun M : Mat3 => M 0 1) h
  have e1 : (Get3x3SxyLinearSystem (fun k => if k = 3 then 2 else 0)
      (fun k => if k = 4 then 4 else 0) (fun k => k) 2).Sxy 0 1 = 0 := by
    norm_num [Get3x3SxyLinearSystem, sxySums, meanSums, mean_1x7, sxyContrib,
      meanContrib, List.range_succ]
  have e2 : specCrossCovariance (fun k => if k = 3 then 2 else 0)
      (fun k => if k = 4 then 4 else 0) (fun k => k) 2 0 1 = 4 := by
    have hcard : (Finset.filter (fun w : ℕ => ¬((w : ℤ) = -1))
        (Finset.range 2)).card = 2 := by decide
    norm_num [specCrossCovariance, specMeanSource, specMeanTarget, validIdx,
      srcVec, tgtVec, Finset.sum_filter, Finset.sum_range_succ,
      Matrix.sum_apply, Matrix.vecMulVec_apply, hcard]
  simp only [e1, e2] at h01
  norm_num at h01

/-- **C4.** For every input with at least one valid correspondence, the
translation returned by `ComputeRtPointToPointCPU` is
`mean_target - R · mean_source`, where the means are the arithmetic means of
the source points and matched target points over the valid correspondences
only, and `R` is the returned rotation. -/
theorem ComputeRtPointToPointCPU_translation
    (svd3 : Mat3 → Mat3 × Mat3 × Mat3) (source target : ℤ → ℚ)
    (corres : ℤ → ℤ) (n : ℕ) (h : ∃ w, w < n ∧ corres w ≠ -1) :
    (ComputeRtPointToPointCPU svd3 source target corres n).2.1 =
      fun j => specMeanTarget target corres n j -
        ((ComputeRtPointToPointCPU svd3 source target corres n).1).mulVec
          (specMeanSource source corres n) j := by
  have hs := Get3x3_mean_s_eq source target corres n
  have ht := Get3x3_mean_t_eq source target corres n
  simp only [ComputeRtPointToPointCPU]
  rw [hs, ht]

/-- Witness for `ComputeRtPointToPointCPU_translation` at a concrete input:
one point, valid correspondence `0 → 0`, identity SVD backend. -/
theorem ComputeRtPointToPointCPU_translation_witness :
    (∃ w, w < 1 ∧ (fun _ : ℤ => (0 : ℤ)) w ≠ -1) ∧
    (ComputeRtPointToPointCPU (fun _ => (1, 1, 1)) (fun _ => 0) (fun _ => 0)
        (fun _ => 0) 1).2.1 =
      fun j => specMeanTarget (fun _ => 0) (fun _ => 0) 1 j -
        ((ComputeRtPointToPointCPU (fun _ => (1, 1, 1)) (fun _ => 0)
          (fun _ => 0) (fun _ => 0) 1).1).mulVec
            (specMeanSource (fun _ => 0) (fun _ => 0) 1) j :=
  ⟨⟨0, by norm_num⟩,
    ComputeRtPointToPointCPU_translation (fun _ => (1, 1, 1)) (fun _ => 0)
      (fun _ => 0) (fun _ => 0) 1 ⟨0, by norm_num⟩⟩

theorem RotationFromUVT_spec (U VT : Mat3) (hU : U * Uᵀ = 1)
    (hVT : VT * VTᵀ = 1) :
    RotationFromUVT U VT =
      U * (Matrix.diagonal ![1, 1, U.det * VT.det] * VT) ∧
    (RotationFromUVT U VT).det = 1 := by
  have hu2 : U.det * U.det = 1 := by
    have h := congrArg Matrix.det hU
    rwa [Matrix.det_mul, Matrix.det_transpose, Matrix.det_one] at h
  have hv2 : VT.det * VT.det = 1 := by
    have h := congrArg Matrix.det hVT
    rwa [Matrix.det_mul, Matrix.det_transpose, Matrix.det_one] at h
  have hone : Matrix.diagonal ![(1 : ℚ), 1, 1] = (1 : Mat3) := by
    have hv : ![(1 : ℚ), 1, 1] = fun _ => 1 := by
      funext i; fin_cases i <;> rfl
    rw [hv, Matrix.diagonal_one]
  have hdetneg : (Matrix.diagonal ![(1 : ℚ), 1, -1]).det = -1 := by
    rw [Matrix.det_diagonal]
    norm_num [Fin.prod_univ_three]
  rcases mul_self_eq_one_iff.mp hu2 with h1 | h1 <;>
    rcases mul_self_eq_one_iff.mp hv2 with h2 | h2 <;>
      constructor <;>
        simp only [RotationFromUVT, Matrix.det_transpose, h1, h2] <;>
          norm_num [hone, hdetneg, Matrix.det_mul, h1, h2]

/-- **C1.** For every input to `ComputeRtPointToPointCPU` on which the SVD of
the accumulated matrix returns orthogonal factors `U`, `VT` (which the
external SVD guarantees, in particular for full-rank input), the returned
rotation is `U · diag(1, 1, det(U)·det(Vᵗ)) · Vᵗ`, and its determinant is
`+1` — never `-1`, i.e. never a reflection. -/
theorem ComputeRtPointToPointCPU_rotation_proper
    (svd3 : Mat3 → Mat3 × Mat3 × Mat3) (source target : ℤ → ℚ)
    (corres : ℤ → ℤ) (n : ℕ)
    (hU : (svd3 (Get3x3SxyLinearSystem source target corres n).Sxy).1 *
      ((svd3 (Get3x3SxyLinearSystem source target corres n).Sxy).1)ᵀ = 1)
    (hVT : (svd3 (Get3x3SxyLinearSystem source target corres n).Sxy).2.2 *
      ((svd3 (Get3x3SxyLinearSystem source target corres n).Sxy).2.2)ᵀ = 1) :
    (ComputeRtPointToPointCPU svd3 source target corres n).1 =
      (svd3 (Get3x3SxyLinearSystem source target corres n).Sxy).1 *
        (Matrix.diagonal ![1, 1,
          ((svd3 (Get3x3SxyLinearSystem source target corres n).Sxy).1).det *
          ((svd3 (Get3x3SxyLinearSystem source target corres n).Sxy).2.2).det]
          * (svd3 (Get3x3SxyLinearSystem source target corres n).Sxy).2.2) ∧
    ((ComputeRtPointToPointCPU svd3 source target corres n).1).det = 1 := by
  simp only [ComputeRtPointToPointCPU]
  exact RotationFromUVT_spec _ _ hU hVT

/-- Witness for `ComputeRtPointToPointCPU_rotation_proper`: with the
identity-returning SVD backend the returned rotation has determinant `1`. -/
theorem ComputeRtPointToPointCPU_rotation_proper_witness :
    ((ComputeRtPointToPointCPU (fun _ => (1, 1, 1)) (fun _ => 0) (fun _ => 0)
      (fun _ => -1) 0).1).det = 1 :=
  (ComputeRtPointToPointCPU_rotation_proper (fun _ => (1, 1, 1)) (fun _ => 0)
    (fun _ => 0) (fun _ => -1) 0 (by simp) (by simp)).2

end Open3D

namespace Open3D

/-! ## The 29-entry reductions of `ComputeTransformCPU.cpp`

`A_1x29` holds the 21 packed entries of the symmetric `AtA`, then the 6
entries of `Atb`, the residual at index 27 and the inlier count at index 28.
`GetJacobianPointToPlane` / `GetJacobianColoredICP` live in the registration
kernel headers, outside these sources; they enter as parameters below. -/

/-- The 29 per-observation increments of `ComputePosePointToPlaneKernelCPU`
(`A[0] += J_ij[0]*w*J_ij[0]; ... A[27] += r*r; A[28] += 1;`), entry by entry
in the order of the source. -/
def accumContrib29 (J : Fin 6 → ℚ) (wt r : ℚ) : Fin 29 → ℚ := fun j =>
  match j.val with
  | 0 => J 0 * wt * J 0
  | 1 => J 1 * wt * J 0
  | 2 => J 1 * wt * J 1
  | 3 => J 2 * wt * J 0
  | 4 => J 2 * wt * J 1
  | 5 => J 2 * wt * J 2
  | 6 => J 3 * wt * J 0
  | 7 => J 3 * wt * J 1
  | 8 => J 3 * wt * J 2
  | 9 => J 3 * wt * J 3
  | 10 => J 4 * wt * J 0
  | 11 => J 4 * wt * J 1
  | 12 => J 4 * wt * J 2
  | 13 => J 4 * wt * J 3
  | 14 => J 4 * wt * J 4
  | 15 => J 5 * wt * J 0
  | 16 => J 5 * wt * J 1
  | 17 => J 5 * wt * J 2
  | 18 => J 5 * wt * J 3
  | 19 => J 5 * wt * J 4
  | 20 => J 5 * wt * J 5
  | 21 => J 0 * wt * r
  | 22 => J 1 * wt * r
  | 23 => J 2 * wt * r
  | 24 => J 3 * wt * r
  | 25 => J 4 * wt * r
  | 26 => J 5 * wt * r
  | 27 => r * r
  | _ => 1

/-- One loop iteration of `ComputePosePointToPlaneKernelCPU`: evaluate the
Jacobian, compute the robust weight `w = op(r)`, and accumulate only when the
observation is valid. -/
def p2pStep (jac : ℕ → Bool × (Fin 6 → ℚ) × ℚ) (op : ℚ → ℚ)
    (A : Fin 29 → ℚ) (workload_idx : ℕ) : Fin 29 → ℚ :=
  let res := jac workload_idx
  let wt := op res.2.2
  if res.1 then A + accumContrib29 res.2.1 wt res.2.2 else A

/-- `ComputeTransformCPU.cpp:ComputePosePointToPlaneKernelCPU`: the parallel
reduction of the 29-entry accumulator over the workload range, with
`GetJacobianPointToPlane` abstracted as `jac` and the robust kernel as `op`. -/
def ComputePosePointToPlaneKernelCPU (jac : ℕ → Bool × (Fin 6 → ℚ) × ℚ)
    (op : ℚ → ℚ) (n : ℕ) : Fin 29 → ℚ :=
  (List.range n).foldl (p2pStep jac op) 0

/-- The 29 per-observation increments of `ComputePoseColoredICPKernelCPU`:
each entry is the geometric term plus the photometric term
(`A[0] += J_G[0]*w_G*J_G[0] + J_I[0]*w_I*J_I[0]; ...
A[27] += r_G*r_G + r_I*r_I; A[28] += 1;`). -/
def accumContrib29ColoredICP (J_G J_I : Fin 6 → ℚ) (w_G w_I r_G r_I : ℚ) :
    Fin 29 → ℚ := fun j =>
  match j.val with
  | 0 => J_G 0 * w_G * J_G 0 + J_I 0 * w_I * J_I 0
  | 1 => J_G 1 * w_G * J_G 0 + J_I 1 * w_I * J_I 0
  | 2 => J_G 1 * w_G * J_G 1 + J_I 1 * w_I * J_I 1
  | 3 => J_G 2 * w_G * J_G 0 + J_I 2 * w_I * J_I 0
  | 4 => J_G 2 * w_G * J_G 1 + J_I 2 * w_I * J_I 1
  | 5 => J_G 2 * w_G * J_G 2 + J_I 2 * w_I * J_I 2
  | 6 => J_G 3 * w_G * J_G 0 + J_I 3 * w_I * J_I 0
  | 7 => J_G 3 * w_G * J_G 1 + J_I 3 * w_I * J_I 1
  | 8 => J_G 3 * w_G * J_G 2 + J_I 3 * w_I * J_I 2
  | 9 => J_G 3 * w_G * J_G 3 + J_I 3 * w_I * J_I 3
  | 10 => J_G 4 * w_G * J_G 0 + J_I 4 * w_I * J_I 0
  | 11 => J_G 4 * w_G * J_G 1 + J_I 4 * w_I * J_I 1
  | 12 => J_G 4 * w_G * J_G 2 + J_I 4 * w_I * J_I 2
  | 13 => J_G 4 * w_G * J_G 3 + J_I 4 * w_I * J_I 3
  | 14 => J_G 4 * w_G * J_G 4 + J_I 4 * w_I * J_I 4
  | 15 => J_G 5 * w_G * J_G 0 + J_I 5 * w_I * J_I 0
  | 16 => J_G 5 * w_G * J_G 1 + J_I 5 * w_I * J_I 1
  | 17 => J_G 5 * w_G * J_G 2 + J_I 5 * w_I * J_I 2
  | 18 => J_G 5 * w_G * J_G 3 + J_I 5 * w_I * J_I 3
  | 19 => J_G 5 * w_G * J_G 4 + J_I 5 * w_I * J_I 4
  | 20 => J_G 5 * w_G * J_G 5 + J_I 5 * w_I * J_I 5
  | 21 => J_G 0 * w_G * r_G + J_I 0 * w_I * r_I
  | 22 => J_G 1 * w_G * r_G + J_I 1 * w_I * r_I
  | 23 => J_G 2 * w_G * r_G + J_I 2 * w_I * r_I
  | 24 => J_G 3 * w_G * r_G + J_I 3 * w_I * r_I
  | 25 => J_G 4 * w_G * r_G + J_I 4 * w_I * r_I
  | 26 => J_G 5 * w_G * r_G + J_I 5 * w_I * r_I
  | 27 => r_G * r_G + r_I * r_I
  | _ => 1

/-- One loop iteration of `ComputePoseColoredICPKernelCPU`: the jacobian
result is `(valid, J_G, J_I, r_G, r_I)`, the weights are `w_G = op(r_G)` and
`w_I = op(r_I)`. -/
def coloredICPStep
    (jac : ℕ → Bool × (Fin 6 → ℚ) × (Fin 6 → ℚ) × ℚ × ℚ) (op : ℚ → ℚ)
    (A : Fin 29 → ℚ) (workload_idx : ℕ) : Fin 29 → ℚ :=
  let res := jac workload_idx
  let w_G := op res.2.2.2.1
  let w_I := op res.2.2.2.2
  if res.1 then
    A + accumContrib29ColoredICP res.2.1 res.2.2.1 w_G w_I res.2.2.2.1
      res.2.2.2.2
  else A

/-- `ComputeTransformCPU.cpp:ComputePoseColoredICPKernelCPU`, with
`GetJacobianColoredICP` abstracted as `jac`. -/
def ComputePoseColoredICPKernelCPU
    (jac : ℕ → Bool × (Fin 6 → ℚ) × (Fin 6 → ℚ) × ℚ × ℚ) (op : ℚ → ℚ)
    (n : ℕ) : Fin 29 → ℚ :=
  (List.range n).foldl (coloredICPStep jac op) 0

/-- Modelled from the spec: `GetJacobianPointToPlane` is declared in
`ComputeTransformImpl.h` and defined in the registration kernel headers,
which are not among these sources.  The spec fixes what the claims need: the
evaluator reports invalid — leaving `J_ij` and `r` at their zero
initialization — when the correspondence of the index is the sentinel `-1`;
the Jacobian/residual of a valid observation stays abstract (`details`). -/
def GetJacobianPointToPlane (details : ℕ → (Fin 6 → ℚ) × ℚ)
    (corres : ℤ → ℤ) (workload_idx : ℕ) : Bool × (Fin 6 → ℚ) × ℚ :=
  if corres workload_idx = -1 then (false, 0, 0)
  else (true, (details workload_idx).1, (details workload_idx).2)

/-- Modelled from the spec: `GetJacobianColoredICP` (same header situation as
`GetJacobianPointToPlane`): invalid, with zero outputs, on the sentinel
`-1`; the two Jacobian/residual pairs of a valid observation stay abstract. -/
def GetJacobianColoredICP
    (details : ℕ → (Fin 6 → ℚ) × (Fin 6 → ℚ) × ℚ × ℚ) (corres : ℤ → ℤ)
    (workload_idx : ℕ) : Bool × (Fin 6 → ℚ) × (Fin 6 → ℚ) × ℚ × ℚ :=
  if corres workload_idx = -1 then (false, 0, 0, 0, 0)
  else (true, details workload_idx)

theorem p2pKernel_eq_sum (jac : ℕ → Bool × (Fin 6 → ℚ) × ℚ) (op : ℚ → ℚ)
    (n : ℕ) :
    ComputePosePointToPlaneKernelCPU jac op n =
      ∑ w in Finset.range n,
        (if (jac w).1 then
          accumContrib29 (jac w).2.1 (op (jac w).2.2) (jac w).2.2 else 0) := by
  rw [ComputePosePointToPlaneKernelCPU]
  have hfun : p2pStep jac op = fun A w => A +
      (if (jac w).1 then
        accumContrib29 (jac w).2.1 (op (jac w).2.2) (jac w).2.2 else 0) := by
    funext A w
    by_cases h : (jac w).1 = true <;> simp [p2pStep, h]
  rw [hfun, foldl_add_range]

theorem coloredKernel_eq_sum
    (jac : ℕ → Bool × (Fin 6 → ℚ) × (Fin 6 → ℚ) × ℚ × ℚ) (op : ℚ → ℚ)
    (n : ℕ) :
    ComputePoseColoredICPKernelCPU jac op n =
      ∑ w in Finset.range n,
        (if (jac w).1 then
          accumContrib29ColoredICP (jac w).2.1 (jac w).2.2.1
            (op (jac w).2.2.2.1) (op (jac w).2.2.2.2) (jac w).2.2.2.1
            (jac w).2.2.2.2 else 0) := by
  rw [ComputePoseColoredICPKernelCPU]
  have hfun : coloredICPStep jac op = fun A w => A +
      (if (jac w).1 then
        accumContrib29ColoredICP (jac w).2.1 (jac w).2.2.1
          (op (jac w).2.2.2.1) (op (jac w).2.2.2.2) (jac w).2.2.2.1
          (jac w).2.2.2.2 else 0) := by
    funext A w
    by_cases h : (jac w).1 = true <;> simp [coloredICPStep, h]
  rw [hfun, foldl_add_range]

end Open3D

namespace Open3D

/-- The spec's reading of accumulator entry 27: the robust-weighted total
residual `Σ w·rᵗr` over the valid observations. -/
def specWeightedResidualP2P (jac : ℕ → Bool × (Fin 6 → ℚ) × ℚ)
    (op : ℚ → ℚ) (n : ℕ) : ℚ :=
  ∑ w in (Finset.range n).filter (fun w => (jac w).1 = true),
    op (jac w).2.2 * ((jac w).2.2 * (jac w).2.2)

/-- **C2 (counterexample).** One valid observation with residual `r = 1`
under a robust kernel with weight `op(r) = 2`: the claim demands
`Σ w·rᵗr = 2` in entry 27, but the kernel accumulates the unweighted `r*r`
and stores `1`. -/
theorem entry27_ne_weighted_residual :
    ComputePosePointToPlaneKernelCPU
        (GetJacobianPointToPlane (fun _ => (0, 1)) (fun _ => 0))
        (fun _ => 2) 1 27 ≠
      specWeightedResidualP2P
        (GetJacobianPointToPlane (fun _ => (0, 1)) (fun _ => 0))
        (fun _ => 2) 1 := by
  have e1 : ComputePosePointToPlaneKernelCPU
      (GetJacobianPointToPlane (fun _ => (0, 1)) (fun _ => 0))
      (fun _ => 2) 1 27 = 1 := by
    norm_num [ComputePosePointToPlaneKernelCPU, p2pStep,
      GetJacobianPointToPlane, List.range_succ, accumContrib29]
  have e2 : specWeightedResidualP2P
      (GetJacobianPointToPlane (fun _ => (0, 1)) (fun _ => 0))
      (fun _ => 2) 1 = 2 := by
    norm_num [specWeightedResidualP2P, GetJacobianPointToPlane,
      Finset.sum_filter, Finset.sum_range_succ]
  rw [e1, e2]
  norm_num

/-- **C2 (amended).** After the reduction, accumulator entry 27 holds the
UNWEIGHTED total residual: `Σ rᵗr` over the valid observations for
`ComputePosePointToPlaneKernelCPU` (`A[27] += r * r`), and
`Σ (r_Gᵗr_G + r_Iᵗr_I)` for `ComputePoseColoredICPKernelCPU`
(`A[27] += r_G*r_G + r_I*r_I`); the robust weight `w` multiplies only the
`JᵗWJ` and `JᵗWr` entries 0-26, for every robust kernel `op` and every
Jacobian evaluator. -/
theorem entry27_is_unweighted_residual (jacP : ℕ → Bool × (Fin 6 → ℚ) × ℚ)
    (jacC : ℕ → Bool × (Fin 6 → ℚ) × (Fin 6 → ℚ) × ℚ × ℚ) (op : ℚ → ℚ)
    (n : ℕ) :
    ComputePosePointToPlaneKernelCPU jacP op n 27 =
      (∑ w in (Finset.range n).filter (fun w => (jacP w).1 = true),
        (jacP w).2.2 * (jacP w).2.2) ∧
    ComputePoseColoredICPKernelCPU jacC op n 27 =
      (∑ w in (Finset.range n).filter (fun w => (jacC w).1 = true),
        ((jacC w).2.2.2.1 * (jacC w).2.2.2.1 +
         (jacC w).2.2.2.2 * (jacC w).2.2.2.2)) := by
  constructor
  · rw [p2pKernel_eq_sum, Finset.sum_apply, Finset.sum_filter]
    refine Finset.sum_congr rfl (fun w _ => ?_)
    by_cases h : (jacP w).1 = true <;> simp [h, accumContrib29]
  · rw [coloredKernel_eq_sum, Finset.sum_apply, Finset.sum_filter]
    refine Finset.sum_congr rfl (fun w _ => ?_)
    by_cases h : (jacC w).1 = true <;> simp [h, accumContrib29ColoredICP]

end Open3D

namespace Open3D

/-- **C6.** Sentinel observations contribute zero everywhere: an index whose
correspondence is `-1` leaves the accumulator unchanged in every entry — all
29 entries of the point-to-plane and colored-ICP reductions, and all 7 and 9
entries of the point-to-point reductions — and when every correspondence in
range is `-1`, `ComputePosePointToPlane`'s accumulator reports inlier count
(entry 28) `0` and is total (the all-zero accumulator is produced, so the
downstream decode receives a defined input). -/
theorem sentinel_contributions_zero :
    (∀ (details : ℕ → (Fin 6 → ℚ) × ℚ) (corres : ℤ → ℤ) (op : ℚ → ℚ)
        (A : Fin 29 → ℚ) (w : ℕ), corres w = -1 →
        p2pStep (GetJacobianPointToPlane details corres) op A w = A) ∧
    (∀ (details : ℕ → (Fin 6 → ℚ) × (Fin 6 → ℚ) × ℚ × ℚ) (corres : ℤ → ℤ)
        (op : ℚ → ℚ) (A : Fin 29 → ℚ) (w : ℕ), corres w = -1 →
        coloredICPStep (GetJacobianColoredICP details corres) op A w = A) ∧
    (∀ (source target : ℤ → ℚ) (corres : ℤ → ℤ) (w : ℕ), corres w = -1 →
        meanContrib source target corres w = 0) ∧
    (∀ (source target : ℤ → ℚ) (corres : ℤ → ℤ) (ms mt : Fin 3 → ℚ) (w : ℕ),
        corres w = -1 → sxyContrib source target corres ms mt w = 0) ∧
    (∀ (details : ℕ → (Fin 6 → ℚ) × ℚ) (corres : ℤ → ℤ) (op : ℚ → ℚ)
        (n : ℕ), (∀ w, w < n → corres w = -1) →
        ComputePosePointToPlaneKernelCPU
          (GetJacobianPointToPlane details corres) op n 28 = 0 ∧
        ComputePosePointToPlaneKernelCPU
          (GetJacobianPointToPlane details corres) op n = 0) := by
  refine ⟨?_, ?_, ?_, ?_, ?_⟩
  · intro details corres op A w h
    simp [p2pStep, GetJacobianPointToPlane, h]
  · intro details corres op A w h
    simp [coloredICPStep, GetJacobianColoredICP, h]
  · intro source target corres w h
    funext j
    simp [meanContrib, h]
  · intro source target corres ms mt w h
    funext i
    simp [sxyContrib, h]
  · intro details corres op n h
    have hall : ComputePosePointToPlaneKernelCPU
        (GetJacobianPointToPlane details corres) op n = 0 := by
      rw [p2pKernel_eq_sum]
      refine Finset.sum_eq_zero (fun w hw => ?_)
      rw [Finset.mem_range] at hw
      simp [GetJacobianPointToPlane, h w hw]
    exact ⟨by rw [hall]; rfl, hall⟩

/-- Witness for `sentinel_contributions_zero`: with every correspondence
`-1`, the point-to-plane accumulator's inlier-count entry is `0`. -/
theorem sentinel_contributions_zero_witness :
    ComputePosePointToPlaneKernelCPU
        (GetJacobianPointToPlane (fun _ => (0, 0)) (fun _ => -1))
        (fun r => r) 2 28 = 0 :=
  (sentinel_contributions_zero.2.2.2.2 (fun _ => (0, 0)) (fun _ => -1)
    (fun r => r) 2 (fun _ _ => rfl)).1

end Open3D

namespace Open3D

/-! ## `SVD3x3CUDA.cuh:EstimatePointWiseColorGradientCPU` /
`EstimatePointWiseCovarianceCPU` (per-point bodies)

The neighbour query (`HybridSearch`) is an external collaborator; its outputs
enter as the flat index array `nbIdx` (sentinel `-1` padded) and the
per-point count array `nbCounts`.  The per-point loop bodies below are the
bodies of the corresponding `parallel for` loops. -/

/-- The average intensity `(c[idx] + c[idx+1] + c[idx+2]) / 3.0`. -/
def intensity (colors : ℤ → ℚ) (idx : ℤ) : ℚ :=
  (colors idx + colors (idx + 1) + colors (idx + 2)) / 3

/-- The loop's `AtA` increments (`AtA[0] += A[0]*A[0]; AtA[1] += A[1]*A[0];
AtA[2] += A[2]*A[0]; AtA[4] += A[1]*A[1]; AtA[5] += A[2]*A[1];
AtA[8] += A[2]*A[2];`). -/
def cgAtAUpdate (AtA : Fin 9 → ℚ) (A : Fin 3 → ℚ) : Fin 9 → ℚ := fun e =>
  match e.val with
  | 0 => AtA 0 + A 0 * A 0
  | 1 => AtA 1 + A 1 * A 0
  | 2 => AtA 2 + A 2 * A 0
  | 4 => AtA 4 + A 1 * A 1
  | 5 => AtA 5 + A 2 * A 1
  | 8 => AtA 8 + A 2 * A 2
  | _ => AtA e

/-- The orthogonal-constraint increments (`AtA[0] += A[0]*A[0];
AtA[1] += A[0]*A[1]; AtA[2] += A[0]*A[2]; AtA[4] += A[1]*A[1];
AtA[5] += A[1]*A[2]; AtA[8] += A[2]*A[2];`). -/
def cgRegUpdate (AtA : Fin 9 → ℚ) (A : Fin 3 → ℚ) : Fin 9 → ℚ := fun e =>
  match e.val with
  | 0 => AtA 0 + A 0 * A 0
  | 1 => AtA 1 + A 0 * A 1
  | 2 => AtA 2 + A 0 * A 2
  | 4 => AtA 4 + A 1 * A 1
  | 5 => AtA 5 + A 1 * A 2
  | 8 => AtA 8 + A 2 * A 2
  | _ => AtA e

/-- The symmetry fill (`AtA[3] = AtA[1]; AtA[6] = AtA[2]; AtA[7] = AtA[5];`). -/
def cgSymFill (AtA : Fin 9 → ℚ) : Fin 9 → ℚ := fun e =>
  match e.val with
  | 3 => AtA 1
  | 6 => AtA 2
  | 7 => AtA 5
  | _ => AtA e

/-- The neighbour loop of `EstimatePointWiseColorGradientCPU`
(`for (i = 1; i < neighbour_count; i++)`), translated with its early exit
(`if (neighbour_idx == -1) break`, where `neighbour_idx` is `3 *` the raw
neighbour index) intact.  `fuel` bounds the remaining iterations (the caller
passes `count - 1`, enough to run the loop from `i = 1` to termination);
returns the accumulated `AtA` (entries 0,1,2,4,5,8), `Atb`, and the exit
value of `i`. -/
def cgLoop (points colors : ℤ → ℚ) (nbIdx : ℤ → ℤ) (vt nt : Fin 3 → ℚ)
    (s it : ℚ) (offset count : ℤ) :
    ℕ → ℤ → (Fin 9 → ℚ) → (Fin 3 → ℚ) → (Fin 9 → ℚ) × (Fin 3 → ℚ) × ℤ
  | 0, i, AtA, Atb => (AtA, Atb, i)
  | fuel + 1, i, AtA, Atb =>
    if i < count then
      let neighbour_idx := 3 * nbIdx (offset + i)
      if neighbour_idx = -1 then (AtA, Atb, i)
      else
        let vt_adj : Fin 3 → ℚ := fun j => points (neighbour_idx + j.val)
        let d := vt_adj 0 * nt 0 + vt_adj 1 * nt 1 + vt_adj 2 * nt 2 - s
        let vt_proj : Fin 3 → ℚ := fun j => vt_adj j - d * nt j
        let it_adj := intensity colors neighbour_idx
        let A : Fin 3 → ℚ := fun j => vt_proj j - vt j
        let b := it_adj - it
        cgLoop points colors nbIdx vt nt s it offset count fuel (i + 1)
          (cgAtAUpdate AtA A) (fun j => Atb j + A j * b)
    else (AtA, Atb, i)

/-- `SVD3x3CUDA.cuh:EstimatePointWiseColorGradientCPU`, per-point body: with
at least 4 neighbours, assemble the tangent-plane least-squares system, add
the orthogonal-constraint row `A = (i-1) * nt`, mirror the symmetric
entries, and solve through `solve_svd3x3`; otherwise write the zero
gradient. -/
def EstimatePointWiseColorGradientPoint (svdFn : SVDFun)
    (points normals colors : ℤ → ℚ) (nbIdx nbCounts : ℤ → ℤ) (max_nn : ℤ)
    (workload_idx : ℕ) : ℚ × ℚ × ℚ :=
  let neighbour_offset := max_nn * workload_idx
  let neighbour_count := nbCounts workload_idx
  let point_idx : ℤ := 3 * workload_idx
  if 4 ≤ neighbour_count then
    let vt : Fin 3 → ℚ := fun j => points (point_idx + j.val)
    let nt : Fin 3 → ℚ := fun j => normals (point_idx + j.val)
    let it := intensity colors point_idx
    let s := vt 0 * nt 0 + vt 1 * nt 1 + vt 2 * nt 2
    let res := cgLoop points colors nbIdx vt nt s it neighbour_offset
      neighbour_count ((neighbour_count - 1).toNat) 1 0 0
    let AtA := res.1
    let Atb := res.2.1
    let i := res.2.2
    let A : Fin 3 → ℚ := fun j => ((i - 1 : ℤ) : ℚ) * nt j
    let AtA3 := cgSymFill (cgRegUpdate AtA A)
    solve_svd3x3 svdFn AtA3 (Atb 0) (Atb 1) (Atb 2)
  else (0, 0, 0)

/-- The flat identity matrix written by the fallback branch of
`EstimatePointWiseCovarianceCPU`. -/
def identityFlat9 : Fin 9 → ℚ := fun e =>
  match e.val with
  | 0 => 1
  | 4 => 1
  | 8 => 1
  | _ => 0

/-- `SVD3x3CUDA.cuh:EstimatePointWiseCovarianceCPU`, per-point body: with at
least 3 neighbours delegate to `EstimatePointWiseCovarianceKernel` (an
external helper kernel, here the parameter `covKernel`); otherwise write the
3x3 identity. -/
def EstimatePointWiseCovariancePoint (covKernel : ℕ → Fin 9 → ℚ)
    (nbCounts : ℤ → ℤ) (workload_idx : ℕ) : Fin 9 → ℚ :=
  if 3 ≤ nbCounts workload_idx then covKernel workload_idx
  else identityFlat9

end Open3D

namespace Open3D

/-- **C8.** Degenerate neighbour counts take the defined fallback branches,
never an error path: a point with fewer than 4 valid neighbours gets the zero
color gradient `[0,0,0]`, and a point with fewer than 3 valid neighbours
gets the 3x3 identity covariance. -/
theorem degenerate_neighbor_fallbacks :
    (∀ (svdFn : SVDFun) (points normals colors : ℤ → ℚ)
        (nbIdx nbCounts : ℤ → ℤ) (max_nn : ℤ) (p : ℕ),
        nbCounts p < 4 →
        EstimatePointWiseColorGradientPoint svdFn points normals colors
          nbIdx nbCounts max_nn p = (0, 0, 0)) ∧
    (∀ (covKernel : ℕ → Fin 9 → ℚ) (nbCounts : ℤ → ℤ) (p : ℕ),
        nbCounts p < 3 →
        toMat3 (EstimatePointWiseCovariancePoint covKernel nbCounts p)
          = 1) := by
  constructor
  · intro svdFn points normals colors nbIdx nbCounts max_nn p h
    rw [EstimatePointWiseColorGradientPoint,
      if_neg (by omega : ¬ (4 ≤ nbCounts p))]
  · intro covKernel nbCounts p h
    rw [EstimatePointWiseCovariancePoint,
      if_neg (by omega : ¬ (3 ≤ nbCounts p))]
    ext i j
    fin_cases i <;> fin_cases j <;> rfl

/-- Witness for `degenerate_neighbor_fallbacks`: 2 neighbours yield the zero
gradient, 1 neighbour yields the identity covariance. -/
theorem degenerate_neighbor_fallbacks_witness :
    EstimatePointWiseColorGradientPoint
        (fun _ => ⟨fun _ => 1, fun _ => 1, fun _ => 1⟩) (fun _ => 0)
        (fun _ => 0) (fun _ => 0) (fun _ => 0) (fun _ => 2) 30 0 = (0, 0, 0) ∧
    toMat3 (EstimatePointWiseCovariancePoint (fun _ _ => 5) (fun _ => 1) 0)
      = 1 :=
  ⟨degenerate_neighbor_fallbacks.1 (fun _ => ⟨fun _ => 1, fun _ => 1, fun _ => 1⟩)
      (fun _ => 0) (fun _ => 0) (fun _ => 0) (fun _ => 0) (fun _ => 2) 30 0
      (by norm_num),
   degenerate_neighbor_fallbacks.2 (fun _ _ => 5) (fun _ => 1) 0
      (by norm_num)⟩

end Open3D

namespace Open3D

/-- The design-matrix row that the color-gradient loop builds for neighbour
slot `i`: the neighbour projected onto the point's tangent plane, minus the
point. -/
def cgNeighborRow (points : ℤ → ℚ) (nbIdx : ℤ → ℤ) (vt nt : Fin 3 → ℚ)
    (s : ℚ) (offset i : ℤ) : Fin 3 → ℚ :=
  let neighbour_idx := 3 * nbIdx (offset + i)
  let vt_adj : Fin 3 → ℚ := fun j => points (neighbour_idx + j.val)
  let d := vt_adj 0 * nt 0 + vt_adj 1 * nt 1 + vt_adj 2 * nt 2 - s
  fun j => (vt_adj j - d * nt j) - vt j

/-- The right-hand side the color-gradient loop builds for neighbour slot
`i`: the neighbour's intensity minus the point's. -/
def cgNeighborB (colors : ℤ → ℚ) (nbIdx : ℤ → ℤ) (it : ℚ) (offset i : ℤ) :
    ℚ :=
  intensity colors (3 * nbIdx (offset + i)) - it

/-- The six lower-triangle increments `AtA[0],AtA[1],AtA[2],AtA[4],AtA[5],
AtA[8]` contributed by one row, in the source's order; other entries get 0. -/
def lowerTriContrib (A : Fin 3 → ℚ) : Fin 9 → ℚ := fun e =>
  match e.val with
  | 0 => A 0 * A 0
  | 1 => A 1 * A 0
  | 2 => A 2 * A 0
  | 4 => A 1 * A 1
  | 5 => A 2 * A 1
  | 8 => A 2 * A 2
  | _ => 0

theorem Ico_int_eq_insert (a b : ℤ) (h : a < b) :
    Finset.Ico a b = insert a (Finset.Ico (a + 1) b) := by
  have hIoo : Finset.Ico (a + 1) b = Finset.Ioo a b := by
    ext x
    simp [Finset.mem_Ico, Finset.mem_Ioo, Int.add_one_le_iff]
  rw [hIoo, Finset.Ioo_insert_left h]

theorem sum_Ico_int_succ_bot {M : Type*} [AddCommMonoid M] (a b : ℤ)
    (h : a < b) (f : ℤ → M) :
    ∑ k in Finset.Ico a b, f k = f a + ∑ k in Finset.Ico (a + 1) b, f k := by
  rw [Ico_int_eq_insert a b h, Finset.sum_insert (by simp)]

/-- The neighbour loop never takes its break: the break condition compares
`3 *` an index with `-1`, which no integer satisfies.  Consequently, from
`i ≤ count` with enough fuel the loop runs to `i = count` and accumulates
exactly the row contributions of slots `i, …, count-1`. -/
theorem cgLoop_no_break_spec (points colors : ℤ → ℚ) (nbIdx : ℤ → ℤ)
    (vt nt : Fin 3 → ℚ) (s it : ℚ) (offset count : ℤ) :
    ∀ (fuel : ℕ) (i : ℤ) (AtA : Fin 9 → ℚ) (Atb : Fin 3 → ℚ),
      i ≤ count → (count - i).toNat ≤ fuel →
      cgLoop points colors nbIdx vt nt s it offset count fuel i AtA Atb =
        (fun e => AtA e + ∑ k in Finset.Ico i count,
            lowerTriContrib (cgNeighborRow points nbIdx vt nt s offset k) e,
         fun j => Atb j + ∑ k in Finset.Ico i count,
            cgNeighborRow points nbIdx vt nt s offset k j *
              cgNeighborB colors nbIdx it offset k,
         count) := by
  intro fuel
  induction fuel with
  | zero =>
      intro i AtA Atb hle hfuel
      have hic : i = count := by omega
      subst hic
      simp [cgLoop]
  | succ fuel ih =>
      intro i AtA Atb hle hfuel
      by_cases hlt : i < count
      · rw [cgLoop]
        rw [if_pos hlt]
        rw [if_neg (by omega : ¬ (3 * nbIdx (offset + i) = -1))]
        rw [ih (i + 1) _ _ (by omega) (by omega)]
        refine congrArg₂ Prod.mk ?_ (congrArg₂ Prod.mk ?_ rfl)
        · funext e
          rw [sum_Ico_int_succ_bot i count hlt]
          rcases e with ⟨ev, he⟩
          interval_cases ev <;>
            simp [cgAtAUpdate, lowerTriContrib, cgNeighborRow] <;> ring
        · funext j
          rw [sum_Ico_int_succ_bot i count hlt]
          simp [cgNeighborRow, cgNeighborB, intensity]
          ring
      · have hic : i = count := by omega
        subst hic
        rw [cgLoop]
        rw [if_neg hlt]
        simp

end Open3D

namespace Open3D

/-- Row-major flattening of a 3x3 matrix. -/
def flatOfMat3 (M : Mat3) : Fin 9 → ℚ := fun e =>
  match e.val with
  | 0 => M 0 0
  | 1 => M 0 1
  | 2 => M 0 2
  | 3 => M 1 0
  | 4 => M 1 1
  | 5 => M 1 2
  | 6 => M 2 0
  | 7 => M 2 1
  | _ => M 2 2

/-- The point (or its normal) as a 3-vector, read at base index `3*p`. -/
def cgVt (arr : ℤ → ℚ) (p : ℕ) : Fin 3 → ℚ :=
  fun j => arr (3 * (p : ℤ) + j.val)

/-- The plane offset `s = vt · nt` computed by the estimator. -/
def cgSOf (points normals : ℤ → ℚ) (p : ℕ) : ℚ :=
  cgVt points p 0 * cgVt normals p 0 + cgVt points p 1 * cgVt normals p 1 +
    cgVt points p 2 * cgVt normals p 2

/-- The data part of the normal-equations matrix: the sum of the outer
products of the projected-neighbour rows over neighbour slots `1..count-1`. -/
def cgDataAtA (points : ℤ → ℚ) (nbIdx : ℤ → ℤ) (vt nt : Fin 3 → ℚ) (s : ℚ)
    (offset count : ℤ) : Mat3 :=
  ∑ k in Finset.Ico (1 : ℤ) count,
    Matrix.vecMulVec (cgNeighborRow points nbIdx vt nt s offset k)
      (cgNeighborRow points nbIdx vt nt s offset k)

/-- The data part of the right-hand side: `Σ A_k · b_k` over neighbour slots
`1..count-1` (the regularization row contributes nothing here). -/
def cgDataAtb (points colors : ℤ → ℚ) (nbIdx : ℤ → ℤ) (vt nt : Fin 3 → ℚ)
    (s it : ℚ) (offset count : ℤ) : Fin 3 → ℚ :=
  fun j => ∑ k in Finset.Ico (1 : ℤ) count,
    cgNeighborRow points nbIdx vt nt s offset k j *
      cgNeighborB colors nbIdx it offset k

theorem cgAssembled_eq_flat (r : ℤ → Fin 3 → ℚ) (count : ℤ)
    (a : Fin 3 → ℚ) :
    cgSymFill (cgRegUpdate
      (fun e => (0 : Fin 9 → ℚ) e +
        ∑ k in Finset.Ico (1 : ℤ) count, lowerTriContrib (r k) e) a) =
    flatOfMat3 ((∑ k in Finset.Ico (1 : ℤ) count,
      Matrix.vecMulVec (r k) (r k)) + Matrix.vecMulVec a a) := by
  funext e
  rcases e with ⟨ev, he⟩
  interval_cases ev <;>
    simp only [cgSymFill, cgRegUpdate, flatOfMat3, Pi.zero_apply, zero_add,
      Matrix.add_apply, Matrix.sum_apply, Matrix.vecMulVec_apply,
      lowerTriContrib] <;>
    exact congrArg₂ (· + ·) (Finset.sum_congr rfl fun k _ => by ring)
      (by ring)

end Open3D

namespace Open3D

/-- **C7 (amended).** For every point with at least 4 valid neighbours,
`EstimatePointWiseColorGradient` solves, through the 3x3 SVD solver, the
normal-equations system consisting of the projected-neighbour rows plus
exactly one normal-direction regularization row with zero right-hand side —
but the regularization row is the point's normal scaled by the neighbour
count MINUS ONE (`(i-1)*nt` with `i = neighbour_count` at loop exit; the
loop starts at slot 1), not by the neighbour count. -/
theorem colorGradient_assembles_regularized_system (svdFn : SVDFun)
    (points normals colors : ℤ → ℚ) (nbIdx nbCounts : ℤ → ℤ) (max_nn : ℤ)
    (p : ℕ) (h : 4 ≤ nbCounts p) :
    EstimatePointWiseColorGradientPoint svdFn points normals colors nbIdx
        nbCounts max_nn p =
      solve_svd3x3 svdFn
        (flatOfMat3 (cgDataAtA points nbIdx (cgVt points p) (cgVt normals p)
            (cgSOf points normals p) (max_nn * p) (nbCounts p) +
          Matrix.vecMulVec
            (fun j => ((nbCounts p - 1 : ℤ) : ℚ) * cgVt normals p j)
            (fun j => ((nbCounts p - 1 : ℤ) : ℚ) * cgVt normals p j)))
        (cgDataAtb points colors nbIdx (cgVt points p) (cgVt normals p)
          (cgSOf points normals p) (intensity colors (3 * p)) (max_nn * p)
          (nbCounts p) 0)
        (cgDataAtb points colors nbIdx (cgVt points p) (cgVt normals p)
          (cgSOf points normals p) (intensity colors (3 * p)) (max_nn * p)
          (nbCounts p) 1)
        (cgDataAtb points colors nbIdx (cgVt points p) (cgVt normals p)
          (cgSOf points normals p) (intensity colors (3 * p)) (max_nn * p)
          (nbCounts p) 2) := by
  simp only [EstimatePointWiseColorGradientPoint]
  rw [if_pos h]
  rw [cgLoop_no_break_spec points colors nbIdx _ _ _ _ (max_nn * (p : ℤ))
    (nbCounts p) ((nbCounts p - 1).toNat) 1 0 0 (by omega) (by omega)]
  rw [cgAssembled_eq_flat]
  delta cgDataAtA cgDataAtb cgVt cgSOf
  simp only [Pi.zero_apply, zero_add]

/-- Witness for `colorGradient_assembles_regularized_system`: the all-zero
input with 4 reported neighbours. -/
theorem colorGradient_assembles_regularized_system_witness :
    EstimatePointWiseColorGradientPoint
        (fun _ => ⟨fun _ => 1, fun _ => 1, fun _ => 1⟩) (fun _ => 0)
        (fun _ => 0) (fun _ => 0) (fun _ => 0) (fun _ => 4) 4 0 =
      solve_svd3x3 (fun _ => ⟨fun _ => 1, fun _ => 1, fun _ => 1⟩)
        (flatOfMat3 (cgDataAtA (fun _ => 0) (fun _ => 0)
            (cgVt (fun _ => 0) 0) (cgVt (fun _ => 0) 0)
            (cgSOf (fun _ => 0) (fun _ => 0) 0) (4 * ((0 : ℕ) : ℤ)) 4 +
          Matrix.vecMulVec
            (fun j => ((4 - 1 : ℤ) : ℚ) * cgVt (fun _ => 0) 0 j)
            (fun j => ((4 - 1 : ℤ) : ℚ) * cgVt (fun _ => 0) 0 j)))
        (cgDataAtb (fun _ => 0) (fun _ => 0) (fun _ => 0)
          (cgVt (fun _ => 0) 0) (cgVt (fun _ => 0) 0)
          (cgSOf (fun _ => 0) (fun _ => 0) 0)
          (intensity (fun _ => 0) (3 * ((0 : ℕ) : ℤ))) (4 * ((0 : ℕ) : ℤ))
          4 0)
        (cgDataAtb (fun _ => 0) (fun _ => 0) (fun _ => 0)
          (cgVt (fun _ => 0) 0) (cgVt (fun _ => 0) 0)
          (cgSOf (fun _ => 0) (fun _ => 0) 0)
          (intensity (fun _ => 0) (3 * ((0 : ℕ) : ℤ))) (4 * ((0 : ℕ) : ℤ))
          4 1)
        (cgDataAtb (fun _ => 0) (fun _ => 0) (fun _ => 0)
          (cgVt (fun _ => 0) 0) (cgVt (fun _ => 0) 0)
          (cgSOf (fun _ => 0) (fun _ => 0) 0)
          (intensity (fun _ => 0) (3 * ((0 : ℕ) : ℤ))) (4 * ((0 : ℕ) : ℤ))
          4 2) :=
  colorGradient_assembles_regularized_system
    (fun _ => ⟨fun _ => 1, fun _ => 1, fun _ => 1⟩) (fun _ => 0) (fun _ => 0)
    (fun _ => 0) (fun _ => 0) (fun _ => 4) 4 0 (by norm_num)

end Open3D

namespace Open3D

/-- Counterexample input for the regularization-row weight: point 0 at the
origin with unit normal `(0,0,1)`, neighbours 1,2,3 at `(1,0,0)`, `(0,1,0)`,
`(1,1,0)` (flat entries 3, 7, and 9,10). -/
def cexPoints : ℤ → ℚ := fun k =>
  if k = 3 then 1 else if k = 7 then 1 else if k = 9 then 1
  else if k = 10 then 1 else 0

def cexNormals : ℤ → ℚ := fun k => if k = 2 then 1 else 0

def cexColors : ℤ → ℚ := fun k =>
  if k < 3 then 0 else if k < 6 then 1 else if k < 9 then 2 else 3

/-- A backend that exposes entry 8 of the matrix it is handed, so that the
two candidate systems produce different solver outputs. -/
def cexSvd : SVDFun := fun A => ⟨fun _ => A 8, fun _ => 1, fun _ => 1⟩

/-- **C7 (counterexample).** On the concrete 4-neighbour input above, the
gradient computed by `EstimatePointWiseColorGradient` is NOT the solution of
the system whose regularization row is the unit normal scaled by the
neighbour count (4): the code's row is scaled by 3 (`i - 1` with
`i = neighbour_count` at loop exit), giving `(243,243,243)` against the
claimed system's `(432,432,432)` under the exhibited SVD backend. -/
theorem colorGradient_reg_row_not_count_scaled :
    EstimatePointWiseColorGradientPoint cexSvd cexPoints cexNormals cexColors
        (fun k => k) (fun _ => 4) 4 0 ≠
      solve_svd3x3 cexSvd
        (flatOfMat3 (cgDataAtA cexPoints (fun k => k) (cgVt cexPoints 0)
            (cgVt cexNormals 0) (cgSOf cexPoints cexNormals 0) 0 4 +
          Matrix.vecMulVec
            (fun j => ((4 : ℤ) : ℚ) * cgVt cexNormals 0 j)
            (fun j => ((4 : ℤ) : ℚ) * cgVt cexNormals 0 j)))
        (cgDataAtb cexPoints cexColors (fun k => k) (cgVt cexPoints 0)
          (cgVt cexNormals 0) (cgSOf cexPoints cexNormals 0)
          (intensity cexColors 0) 0 4 0)
        (cgDataAtb cexPoints cexColors (fun k => k) (cgVt cexPoints 0)
          (cgVt cexNormals 0) (cgSOf cexPoints cexNormals 0)
          (intensity cexColors 0) 0 4 1)
        (cgDataAtb cexPoints cexColors (fun k => k) (cgVt cexPoints 0)
          (cgVt cexNormals 0) (cgSOf cexPoints cexNormals 0)
          (intensity cexColors 0) 0 4 2) := by
  have hIco : Finset.Ico (1 : ℤ) 4 = {1, 2, 3} := by decide
  have e1 :
      EstimatePointWiseColorGradientPoint cexSvd cexPoints cexNormals
        cexColors (fun k => k) (fun _ => 4) 4 0 = (243, 243, 243) := by
    simp only [EstimatePointWiseColorGradientPoint]
    rw [if_pos (by norm_num : (4 : ℤ) ≤ 4)]
    rw [cgLoop_no_break_spec cexPoints cexColors (fun k => k) _ _ _ _
      (4 * ((0 : ℕ) : ℤ)) 4 ((4 - 1 : ℤ).toNat) 1 0 0 (by omega) (by omega)]
    rw [cgAssembled_eq_flat]
    norm_num [solve_svd3x3, matmul3x3_3x3, matmul3x3_3x1, cexSvd, epsilon,
      flatOfMat3, cgNeighborRow, cgNeighborB, intensity, cexPoints,
      cexNormals, cexColors, hIco, Finset.sum_insert, Finset.sum_singleton,
      Matrix.sum_apply, Matrix.add_apply, Matrix.vecMulVec_apply,
      Prod.ext_iff]
  have e2 :
      solve_svd3x3 cexSvd
        (flatOfMat3 (cgDataAtA cexPoints (fun k => k) (cgVt cexPoints 0)
            (cgVt cexNormals 0) (cgSOf cexPoints cexNormals 0) 0 4 +
          Matrix.vecMulVec
            (fun j => ((4 : ℤ) : ℚ) * cgVt cexNormals 0 j)
            (fun j => ((4 : ℤ) : ℚ) * cgVt cexNormals 0 j)))
        (cgDataAtb cexPoints cexColors (fun k => k) (cgVt cexPoints 0)
          (cgVt cexNormals 0) (cgSOf cexPoints cexNormals 0)
          (intensity cexColors 0) 0 4 0)
        (cgDataAtb cexPoints cexColors (fun k => k) (cgVt cexPoints 0)
          (cgVt cexNormals 0) (cgSOf cexPoints cexNormals 0)
          (intensity cexColors 0) 0 4 1)
        (cgDataAtb cexPoints cexColors (fun k => k) (cgVt cexPoints 0)
          (cgVt cexNormals 0) (cgSOf cexPoints cexNormals 0)
          (intensity cexColors 0) 0 4 2) = (432, 432, 432) := by
    norm_num [solve_svd3x3, matmul3x3_3x3, matmul3x3_3x1, cexSvd, epsilon,
      flatOfMat3, cgDataAtA, cgDataAtb, cgVt, cgSOf, cgNeighborRow,
      cgNeighborB, intensity, cexPoints, cexNormals, cexColors, hIco,
      Finset.sum_insert, Finset.sum_singleton, Matrix.sum_apply,
      Matrix.add_apply, Matrix.vecMulVec_apply, Prod.ext_iff]
  rw [e1, e2]
  norm_num [Prod.ext_iff]

end Open3D
